import Mathlib

/-!
Shallow embedding of the core of the `another_gpu_path_tracer` renderer,
together with proofs checking the natural-language specification against it.

The embedding follows the C++ sources under `src/include`:
* `entities/Vec3.tpp`            — the 3-component vector;
* `entities/MediumList_t.hpp`    — the fixed-capacity priority list of mediums;
* `entities/Ray_t.hpp`           — the mutable ray state;
* `entities/TransformMatrix_t.tpp` — the 4 times 4 homogeneous transform;
* `shapes/Triangle_t.tpp`        — the triangle primitive and its
  Moeller-Trumbore intersection routine;
* `entities/Scene_t.tpp`         — brute-force intersection and the raycast
  bounce loop (the `Accessor_t` device-side variant, which is the same loop);
* `materials/Diffuse_t.tpp`      — the diffuse material bounce;
* `images/SimpleImage_t.tpp` and `cameras/SphericalCamera_t.tpp` — per-pixel
  accumulation and the write-out colour pipeline.

Machine floating point is embedded as exact arithmetic: the rational numbers
for the geometric and scene code (which is executable), and the real numbers
for the code that uses transcendental functions (sqrt, cos, sin, pow).
Loops are embedded as structurally recursive functions on an iteration count,
so that concrete runs reduce.
-/

namespace AGPTracer

/-- Embedding of `AGPTracer::Entities::Vec3<T>` (`entities/Vec3.tpp`): three
scalars used interchangeably as point, direction or RGB colour. -/
structure Vec3 (α : Type) where
  x : α
  y : α
  z : α
deriving DecidableEq, Repr

section Vec3Ops

variable {α : Type} [LinearOrderedField α]

/-- Componentwise addition, `Vec3::operator+(const Vec3&)`. -/
def Vec3.add (a b : Vec3 α) : Vec3 α :=
  ⟨a.x + b.x, a.y + b.y, a.z + b.z⟩

/-- Componentwise subtraction, `Vec3::operator-(const Vec3&)`. -/
def Vec3.sub (a b : Vec3 α) : Vec3 α :=
  ⟨a.x - b.x, a.y - b.y, a.z - b.z⟩

/-- Componentwise negation, `Vec3::operator-()`. -/
def Vec3.neg (a : Vec3 α) : Vec3 α :=
  ⟨-a.x, -a.y, -a.z⟩

/-- Componentwise (Hadamard) product, `Vec3::operator*(const Vec3&)`. -/
def Vec3.mulV (a b : Vec3 α) : Vec3 α :=
  ⟨a.x * b.x, a.y * b.y, a.z * b.z⟩

/-- Scaling by a scalar, `Vec3::operator*(T2 scale)`. -/
def Vec3.smul (a : Vec3 α) (s : α) : Vec3 α :=
  ⟨a.x * s, a.y * s, a.z * s⟩

/-- Dot product, `Vec3::dot`. -/
def Vec3.dot (a b : Vec3 α) : α :=
  a.x * b.x + a.y * b.y + a.z * b.z

/-- Cross product, `Vec3::cross`. -/
def Vec3.cross (a b : Vec3 α) : Vec3 α :=
  ⟨a.y * b.z - a.z * b.y, a.z * b.x - a.x * b.z, a.x * b.y - a.y * b.x⟩

/-- Squared magnitude, `Vec3::magnitudeSquared`. -/
def Vec3.magnitudeSquared (a : Vec3 α) : α :=
  a.x * a.x + a.y * a.y + a.z * a.z

/-- Componentwise clamp, `Vec3::clamp(minimum, maximum)`: the source first
applies `min(maximum)` and then `max(minimum)` on each component. -/
def Vec3.clampV (a : Vec3 α) (lo hi : α) : Vec3 α :=
  ⟨max (min a.x hi) lo, max (min a.y hi) lo, max (min a.z hi) lo⟩

end Vec3Ops

/-- Normalization over the reals, `Vec3::normalize` and
`Vec3::normalize_inplace`: divide each component by
`magnitude() = sqrt(magnitudeSquared())`. -/
noncomputable def Vec3.normalize (a : Vec3 ℝ) : Vec3 ℝ :=
  ⟨a.x / Real.sqrt a.magnitudeSquared, a.y / Real.sqrt a.magnitudeSquared,
    a.z / Real.sqrt a.magnitudeSquared⟩

/-- Componentwise real power, `Vec3::pow_inplace(exp)` (each component is
`std::pow(component, exp)`). -/
noncomputable def Vec3.powV (a : Vec3 ℝ) (e : ℝ) : Vec3 ℝ :=
  ⟨a.x ^ e, a.y ^ e, a.z ^ e⟩

/-- Embedding of `AGPTracer::Entities::MediumList_t<N>`
(`entities/MediumList_t.hpp`): `n_mediums_` active entries in a
fixed-capacity backing array `mediums_` of medium indices.  The backing
`std::array<size_t, N>` is modelled as a list whose length is the capacity
`N`. -/
structure MediumList where
  n_mediums : ℕ
  mediums : List ℕ
deriving DecidableEq, Repr

/-- The inner shift of `MediumList_t::add_to_mediums`, transcribed exactly:
`for (j = i; j < stop; ++j) { mediums_[j + 1] = mediums_[j]; }`.
Each write happens before the read of the next iteration, as in the source
(the loop is embedded structurally on the remaining iteration count
`stop - j`). -/
def MediumList.addShiftLoop : List ℕ → ℕ → ℕ → List ℕ
  | meds, _, 0 => meds
  | meds, j, c + 1 => MediumList.addShiftLoop (meds.set (j + 1) (meds.getD j 0)) (j + 1) c

/-- The scan of `MediumList_t::add_to_mediums`, transcribed exactly:
`for (i = 0; i < n_mediums_; ++i)` looks for the first entry whose priority
(through the accessor `prio`) is `<=` the priority of the inserted medium;
there it shifts by one up to `min(n_mediums_, mediums_.size() - 1)`, writes
the new medium, and clamps the count at capacity.  When the scan falls
through, the medium is appended only if there is room.  The loop is embedded
structurally on the remaining iteration count `n_mediums_ - i`. -/
def MediumList.addScanLoop (prio : ℕ → ℕ) (lst : MediumList) (medium : ℕ) : ℕ → ℕ → MediumList
  | _, 0 =>
    if lst.n_mediums < lst.mediums.length then
      ⟨lst.n_mediums + 1, lst.mediums.set lst.n_mediums medium⟩
    else lst
  | i, c + 1 =>
    if prio (lst.mediums.getD i 0) ≤ prio medium then
      ⟨min (lst.n_mediums + 1) lst.mediums.length,
        (MediumList.addShiftLoop lst.mediums i
          (min lst.n_mediums (lst.mediums.length - 1) - i)).set i medium⟩
    else MediumList.addScanLoop prio lst medium (i + 1) c

/-- Embedding of `MediumList_t::add_to_mediums(accessor, medium)`:
`prio idx` is `accessor[idx].priority_`. -/
def MediumList.add_to_mediums (prio : ℕ → ℕ) (lst : MediumList) (medium : ℕ) : MediumList :=
  MediumList.addScanLoop prio lst medium 0 lst.n_mediums

/-- The inner shift of `MediumList_t::remove_from_mediums`, transcribed
exactly: `for (j = i; j < n_mediums_ - 1; ++j) { mediums_[j] = mediums_[j + 1]; }`
(embedded structurally on the remaining iteration count). -/
def MediumList.removeShiftLoop : List ℕ → ℕ → ℕ → List ℕ
  | meds, _, 0 => meds
  | meds, j, c + 1 => MediumList.removeShiftLoop (meds.set j (meds.getD (j + 1) 0)) (j + 1) c

/-- The scan of `MediumList_t::remove_from_mediums`: find the first `i` with
`mediums_[i] == medium`, shift the later live entries down by one and
decrement the count; fall through without any change when the medium does
not occur. -/
def MediumList.removeScanLoop (lst : MediumList) (medium : ℕ) : ℕ → ℕ → MediumList
  | _, 0 => lst
  | i, c + 1 =>
    if lst.mediums.getD i 0 = medium then
      ⟨lst.n_mediums - 1,
        MediumList.removeShiftLoop lst.mediums i (lst.n_mediums - 1 - i)⟩
    else MediumList.removeScanLoop lst medium (i + 1) c

/-- Embedding of `MediumList_t::remove_from_mediums(medium)`. -/
def MediumList.remove_from_mediums (lst : MediumList) (medium : ℕ) : MediumList :=
  MediumList.removeScanLoop lst medium 0 lst.n_mediums

/-- Embedding of `AGPTracer::Entities::Ray_t<T, N>` (`entities/Ray_t.hpp`). -/
structure Ray (α : Type) where
  origin : Vec3 α
  direction : Vec3 α
  colour : Vec3 α
  mask : Vec3 α
  dist : α
  medium_list : MediumList
  time : α
deriving DecidableEq, Repr

/-- Embedding of `AGPTracer::Entities::TransformMatrix_t<T>`
(`entities/TransformMatrix_t.tpp`): the 16-element row-major matrix
`matrix_` (the derived transpose-inverse cache `inverse_matrix_` is not
modelled because none of the embedded routines read it). -/
structure TransformMatrix where
  m0 : ℚ
  m1 : ℚ
  m2 : ℚ
  m3 : ℚ
  m4 : ℚ
  m5 : ℚ
  m6 : ℚ
  m7 : ℚ
  m8 : ℚ
  m9 : ℚ
  m10 : ℚ
  m11 : ℚ
  m12 : ℚ
  m13 : ℚ
  m14 : ℚ
  m15 : ℚ
deriving DecidableEq, Repr

/-- The identity matrix of the default constructor `TransformMatrix_t()`. -/
def TransformMatrix.identity : TransformMatrix :=
  ⟨1, 0, 0, 0, 0, 1, 0, 0, 0, 0, 1, 0, 0, 0, 0, 1⟩

/-- Row-major 4 times 4 matrix product, as computed entrywise by every
composing operation of the source
(`matrix_[4j + i] = sum_k matrix[4j + k] * other[4k + i]`). -/
def TransformMatrix.matMul (A B : TransformMatrix) : TransformMatrix :=
  ⟨A.m0 * B.m0 + A.m1 * B.m4 + A.m2 * B.m8 + A.m3 * B.m12,
    A.m0 * B.m1 + A.m1 * B.m5 + A.m2 * B.m9 + A.m3 * B.m13,
    A.m0 * B.m2 + A.m1 * B.m6 + A.m2 * B.m10 + A.m3 * B.m14,
    A.m0 * B.m3 + A.m1 * B.m7 + A.m2 * B.m11 + A.m3 * B.m15,
    A.m4 * B.m0 + A.m5 * B.m4 + A.m6 * B.m8 + A.m7 * B.m12,
    A.m4 * B.m1 + A.m5 * B.m5 + A.m6 * B.m9 + A.m7 * B.m13,
    A.m4 * B.m2 + A.m5 * B.m6 + A.m6 * B.m10 + A.m7 * B.m14,
    A.m4 * B.m3 + A.m5 * B.m7 + A.m6 * B.m11 + A.m7 * B.m15,
    A.m8 * B.m0 + A.m9 * B.m4 + A.m10 * B.m8 + A.m11 * B.m12,
    A.m8 * B.m1 + A.m9 * B.m5 + A.m10 * B.m9 + A.m11 * B.m13,
    A.m8 * B.m2 + A.m9 * B.m6 + A.m10 * B.m10 + A.m11 * B.m14,
    A.m8 * B.m3 + A.m9 * B.m7 + A.m10 * B.m11 + A.m11 * B.m15,
    A.m12 * B.m0 + A.m13 * B.m4 + A.m14 * B.m8 + A.m15 * B.m12,
    A.m12 * B.m1 + A.m13 * B.m5 + A.m14 * B.m9 + A.m15 * B.m13,
    A.m12 * B.m2 + A.m13 * B.m6 + A.m14 * B.m10 + A.m15 * B.m14,
    A.m12 * B.m3 + A.m13 * B.m7 + A.m14 * B.m11 + A.m15 * B.m15⟩

/-- Embedding of `TransformMatrix_t::multVec(vec)`: the source computes
`vec2[i] = vec[0] * matrix_[i] + vec[1] * matrix_[i + 4] + vec[2] * matrix_[i + 8] + matrix_[i + 12]`
for `i = 0..3` and then perspective-divides by `vec2[3]`. -/
def TransformMatrix.multVec (M : TransformMatrix) (v : Vec3 ℚ) : Vec3 ℚ :=
  let w0 := v.x * M.m0 + v.y * M.m4 + v.z * M.m8 + M.m12
  let w1 := v.x * M.m1 + v.y * M.m5 + v.z * M.m9 + M.m13
  let w2 := v.x * M.m2 + v.y * M.m6 + v.z * M.m10 + M.m14
  let w3 := v.x * M.m3 + v.y * M.m7 + v.z * M.m11 + M.m15
  ⟨w0 / w3, w1 / w3, w2 / w3⟩

/-- The homogeneous weight `vec2[3]` computed inside
`TransformMatrix_t::multVec`: the scalar the source perspective-divides by. -/
def TransformMatrix.homogeneousWeight (M : TransformMatrix) (v : Vec3 ℚ) : ℚ :=
  v.x * M.m3 + v.y * M.m7 + v.z * M.m11 + M.m15

/-- Embedding of `TransformMatrix_t::invert()`, transcribed literally from the
cofactor-expansion code (`entities/TransformMatrix_t.tpp`): `t0..t15` is the
`transpose` array, `tmp0..tmp11` the first pairs block, `s0..s11` the
reassigned second pairs block, `n0..n15` the new entries before the final
scaling by `det = 1 / (t0 n0 + t1 n1 + t2 n2 + t3 n3)`. -/
def TransformMatrix.invert (M : TransformMatrix) : TransformMatrix :=
  let t0 := M.m0
  let t1 := M.m4
  let t2 := M.m8
  let t3 := M.m12
  let t4 := M.m1
  let t5 := M.m5
  let t6 := M.m9
  let t7 := M.m13
  let t8 := M.m2
  let t9 := M.m6
  let t10 := M.m10
  let t11 := M.m14
  let t12 := M.m3
  let t13 := M.m7
  let t14 := M.m11
  let t15 := M.m15
  let tmp0 := t10 * t15
  let tmp1 := t11 * t14
  let tmp2 := t9 * t15
  let tmp3 := t11 * t13
  let tmp4 := t9 * t14
  let tmp5 := t10 * t13
  let tmp6 := t8 * t15
  let tmp7 := t11 * t12
  let tmp8 := t8 * t14
  let tmp9 := t10 * t12
  let tmp10 := t8 * t13
  let tmp11 := t9 * t12
  let n0 := tmp0 * t5 + tmp3 * t6 + tmp4 * t7 - (tmp1 * t5 + tmp2 * t6 + tmp5 * t7)
  let n1 := tmp1 * t4 + tmp6 * t6 + tmp9 * t7 - (tmp0 * t4 + tmp7 * t6 + tmp8 * t7)
  let n2 := tmp2 * t4 + tmp7 * t5 + tmp10 * t7 - (tmp3 * t4 + tmp6 * t5 + tmp11 * t7)
  let n3 := tmp5 * t4 + tmp8 * t5 + tmp11 * t6 - (tmp4 * t4 + tmp9 * t5 + tmp10 * t6)
  let n4 := tmp1 * t1 + tmp2 * t2 + tmp5 * t3 - (tmp0 * t1 + tmp3 * t2 + tmp4 * t3)
  let n5 := tmp0 * t0 + tmp7 * t2 + tmp8 * t3 - (tmp1 * t0 + tmp6 * t2 + tmp9 * t3)
  let n6 := tmp3 * t0 + tmp6 * t1 + tmp11 * t3 - (tmp2 * t0 + tmp7 * t1 + tmp10 * t3)
  let n7 := tmp4 * t0 + tmp9 * t1 + tmp10 * t2 - (tmp5 * t0 + tmp8 * t1 + tmp11 * t2)
  let s0 := t2 * t7
  let s1 := t3 * t6
  let s2 := t1 * t7
  let s3 := t3 * t5
  let s4 := t1 * t6
  let s5 := t2 * t5
  let s6 := t0 * t7
  let s7 := t3 * t4
  let s8 := t0 * t6
  let s9 := t2 * t4
  let s10 := t0 * t5
  let s11 := t1 * t4
  let n8 := s0 * t13 + s3 * t14 + s4 * t15 - (s1 * t13 + s2 * t14 + s5 * t15)
  let n9 := s1 * t12 + s6 * t14 + s9 * t15 - (s0 * t12 + s7 * t14 + s8 * t15)
  let n10 := s2 * t12 + s7 * t13 + s10 * t15 - (s3 * t12 + s6 * t13 + s11 * t15)
  let n11 := s5 * t12 + s8 * t13 + s11 * t14 - (s4 * t12 + s9 * t13 + s10 * t14)
  let n12 := s2 * t10 + s5 * t11 + s1 * t9 - (s4 * t11 + s0 * t9 + s3 * t10)
  let n13 := s8 * t11 + s0 * t8 + s7 * t10 - (s6 * t10 + s9 * t11 + s1 * t8)
  let n14 := s6 * t9 + s11 * t11 + s3 * t8 - (s10 * t11 + s2 * t8 + s7 * t9)
  let n15 := s10 * t10 + s4 * t8 + s9 * t9 - (s8 * t9 + s11 * t10 + s5 * t8)
  let det := 1 / (t0 * n0 + t1 * n1 + t2 * n2 + t3 * n3)
  ⟨n0 * det, n1 * det, n2 * det, n3 * det,
    n4 * det, n5 * det, n6 * det, n7 * det,
    n8 * det, n9 * det, n10 * det, n11 * det,
    n12 * det, n13 * det, n14 * det, n15 * det⟩

/-- The determinant scalar computed inside `TransformMatrix_t::invert()`
(the denominator of its `det`), written with the same cofactors. -/
def TransformMatrix.det (M : TransformMatrix) : ℚ :=
  let t0 := M.m0
  let t1 := M.m4
  let t2 := M.m8
  let t3 := M.m12
  let t4 := M.m1
  let t5 := M.m5
  let t6 := M.m9
  let t7 := M.m13
  let t8 := M.m2
  let t9 := M.m6
  let t10 := M.m10
  let t11 := M.m14
  let t12 := M.m3
  let t13 := M.m7
  let t14 := M.m11
  let t15 := M.m15
  let tmp0 := t10 * t15
  let tmp1 := t11 * t14
  let tmp2 := t9 * t15
  let tmp3 := t11 * t13
  let tmp4 := t9 * t14
  let tmp5 := t10 * t13
  let tmp6 := t8 * t15
  let tmp7 := t11 * t12
  let tmp8 := t8 * t14
  let tmp9 := t10 * t12
  let tmp10 := t8 * t13
  let tmp11 := t9 * t12
  let n0 := tmp0 * t5 + tmp3 * t6 + tmp4 * t7 - (tmp1 * t5 + tmp2 * t6 + tmp5 * t7)
  let n1 := tmp1 * t4 + tmp6 * t6 + tmp9 * t7 - (tmp0 * t4 + tmp7 * t6 + tmp8 * t7)
  let n2 := tmp2 * t4 + tmp7 * t5 + tmp10 * t7 - (tmp3 * t4 + tmp6 * t5 + tmp11 * t7)
  let n3 := tmp5 * t4 + tmp8 * t5 + tmp11 * t6 - (tmp4 * t4 + tmp9 * t5 + tmp10 * t6)
  t0 * n0 + t1 * n1 + t2 * n2 + t3 * n3

/-- Embedding of `AGPTracer::Shapes::Triangle_t<T>` (`shapes/Triangle_t.tpp`):
the material index and the cached transformed points and edge vectors read by
`intersection`.  Normals, texture coordinates and the tangent are omitted
because none of the embedded routines read them. -/
structure Triangle where
  material : ℕ
  p0 : Vec3 ℚ
  p1 : Vec3 ℚ
  p2 : Vec3 ℚ
  v0v1 : Vec3 ℚ
  v0v2 : Vec3 ℚ
deriving DecidableEq, Repr

/-- The point and edge part of the `Triangle_t` constructor (and of
`update()`): transform the three original points with
`transformation_.multVec` and cache `v0v1_ = points_[1] - points_[0]`,
`v0v2_ = points_[2] - points_[0]`. -/
def Triangle.construct (material : ℕ) (transformation : TransformMatrix)
    (q0 q1 q2 : Vec3 ℚ) : Triangle :=
  let p0 := transformation.multVec q0
  let p1 := transformation.multVec q1
  let p2 := transformation.multVec q2
  ⟨material, p0, p1, p2, p1.sub p0, p2.sub p0⟩

/-- The value of `std::numeric_limits<double>::min()`, the smallest positive
normal double, used by the intersection parallel-rejection test. -/
def doubleMinPos : ℚ := 1 / 2 ^ 1022

/-- Embedding of `Triangle_t::intersection(ray, t, uv)` (Moeller-Trumbore,
`shapes/Triangle_t.tpp`): `none` models returning `false`, and
`some (t, u, v)` models returning `true` with outputs `t` and `uv`. -/
def Triangle.intersection (tri : Triangle) (ray : Ray ℚ) : Option (ℚ × ℚ × ℚ) :=
  let pvec := ray.direction.cross tri.v0v2
  let det := tri.v0v1.dot pvec
  if |det| < doubleMinPos then none
  else
    let invdet := 1 / det
    let tvec := ray.origin.sub tri.p0
    let u := tvec.dot pvec * invdet
    if u < 0 ∨ u > 1 then none
    else
      let qvec := tvec.cross tri.v0v1
      let v := ray.direction.dot qvec * invdet
      if v < 0 ∨ u + v > 1 then none
      else
        let t := tri.v0v2.dot qvec * invdet
        if t < 0 then none
        else some (t, u, v)

/-- Embedding of `AGPTracer::Entities::Scene_t` (`entities/Scene_t.tpp`): the
three parallel collections.  Materials and mediums are kept abstract, as the
source is generic over them: a material is its `bounce(uv, hit_obj, ray)`
state transformer and a medium is its `scatter(ray)` transformer returning
the veto flag together with the updated ray. -/
structure Scene where
  shapes : List Triangle
  materials : List ((ℚ × ℚ) → Triangle → Ray ℚ → Ray ℚ)
  mediums : List (Ray ℚ → Bool × Ray ℚ)

/-- Default used to model the unchecked accessor read
`materials_[hit_obj->get().material_]`: out-of-bounds device reads are
undefined in the source, so any default serves. -/
def defaultMaterial : (ℚ × ℚ) → Triangle → Ray ℚ → Ray ℚ :=
  fun _ _ ray => ray

/-- Default used to model the unchecked accessor read
`mediums_[ray.medium_list_.mediums_[0]]`. -/
def defaultMedium : Ray ℚ → Bool × Ray ℚ :=
  fun ray => (false, ray)

/-- Embedding of `Scene_t::Accessor_t::intersect_brute(ray, t, uv)`: linear
scan keeping the hit with the smallest `t` (strictly smaller than the best so
far, so the earliest shape wins ties).  The source initialises the best `t`
to `std::numeric_limits<T>::max()`, modelled here by the empty option. -/
def Scene.intersect_brute (shapes : List Triangle) (ray : Ray ℚ) :
    Option (ℚ × (ℚ × ℚ) × Triangle) :=
  shapes.foldl
    (fun hit shape =>
      match Triangle.intersection shape ray with
      | none => hit
      | some (t_temp, u, v) =>
        match hit with
        | none => some (t_temp, (u, v), shape)
        | some (t, uv, s) =>
          if t_temp < t then some (t_temp, (u, v), shape) else some (t, uv, s))
    none

/-- Embedding of the loop of `Scene_t::Accessor_t::raycast(rng, ray,
max_bounces, skybox)` (`entities/Scene_t.tpp`).  The loop counter `bounces`
increases by exactly one on every hit iteration and the loop otherwise
returns, so the loop is embedded structurally on the remaining budget
`max_bounces - bounces`.  `minimum_mask = 0.01` is the fixed cutoff of the
source. -/
def Scene.raycastLoop (scene : Scene) (skybox : Vec3 ℚ → Vec3 ℚ) :
    ℕ → Ray ℚ → Ray ℚ
  | 0, ray => ray
  | fuel + 1, ray =>
    if ray.mask.magnitudeSquared > 1 / 100 then
      match Scene.intersect_brute scene.shapes ray with
      | none => { ray with colour := ray.colour.add (ray.mask.mulV (skybox ray.direction)) }
      | some (t, uv, shape) =>
        let hitRay := { ray with dist := t }
        let scat := (scene.mediums.getD (hitRay.medium_list.mediums.getD 0 0) defaultMedium) hitRay
        Scene.raycastLoop scene skybox fuel
          (if scat.1 then scat.2
           else (scene.materials.getD shape.material defaultMaterial) uv shape scat.2)
    else ray

/-- Embedding of `Scene_t::Accessor_t::raycast`, starting with `bounces = 0`. -/
def Scene.raycast (scene : Scene) (skybox : Vec3 ℚ → Vec3 ℚ) (max_bounces : ℕ)
    (ray : Ray ℚ) : Ray ℚ :=
  Scene.raycastLoop scene skybox max_bounces ray

/-- Modelled from the spec: the raycast loop as the specification words it,
with an explicit bounce counter.  While `bounces < max_bounces` and
`mask.magnitudeSquared() > 0.01`: intersect against all shapes; on a miss add
`mask * skybox.get(direction)` to the colour and terminate; on a hit set
`ray.dist` to the hit `t`, increment the bounce count, ask the active medium
(`mediums[0]`) to scatter, and when (and only when) scatter returned false
invoke the hit shape material bounce before looping. -/
def Scene.raycastFromSpec (scene : Scene) (skybox : Vec3 ℚ → Vec3 ℚ)
    (max_bounces : ℕ) (bounces : ℕ) (ray : Ray ℚ) : Ray ℚ :=
  if h : bounces < max_bounces ∧ ray.mask.magnitudeSquared > 1 / 100 then
    match Scene.intersect_brute scene.shapes ray with
    | none => { ray with colour := ray.colour.add (ray.mask.mulV (skybox ray.direction)) }
    | some (t, uv, shape) =>
      let hitRay := { ray with dist := t }
      let scat := (scene.mediums.getD (hitRay.medium_list.mediums.getD 0 0) defaultMedium) hitRay
      if scat.1 then Scene.raycastFromSpec scene skybox max_bounces (bounces + 1) scat.2
      else
        Scene.raycastFromSpec scene skybox max_bounces (bounces + 1)
          ((scene.materials.getD shape.material defaultMaterial) uv shape scat.2)
  else ray
termination_by max_bounces - bounces
decreasing_by
  all_goals exact Nat.sub_lt_sub_left h.1 (Nat.lt_succ_self bounces)

/-- The in-bounds precondition of the unchecked medium read performed on
every hit iteration of the raycast loop: the medium list of the ray is
non-empty and its front entry indexes into the medium collection of the
scene. -/
def Scene.MediumAccessOk (scene : Scene) (ray : Ray ℚ) : Prop :=
  1 ≤ ray.medium_list.n_mediums ∧
    ray.medium_list.mediums.getD 0 0 < scene.mediums.length

instance (scene : Scene) (ray : Ray ℚ) : Decidable (Scene.MediumAccessOk scene ray) := by
  unfold Scene.MediumAccessOk
  infer_instance

/-- A total (option-returning) variant of the raycast loop in which the
unchecked read `mediums_[ray.medium_list_.mediums_[0]]` is guarded: the
error branch `none` is taken when the medium list is empty or its front
entry is out of bounds.  Otherwise it performs exactly the source loop. -/
def Scene.raycastCheckedLoop (scene : Scene) (skybox : Vec3 ℚ → Vec3 ℚ) :
    ℕ → Ray ℚ → Option (Ray ℚ)
  | 0, ray => some ray
  | fuel + 1, ray =>
    if ray.mask.magnitudeSquared > 1 / 100 then
      match Scene.intersect_brute scene.shapes ray with
      | none => some { ray with colour := ray.colour.add (ray.mask.mulV (skybox ray.direction)) }
      | some (t, uv, shape) =>
        let hitRay := { ray with dist := t }
        if Scene.MediumAccessOk scene hitRay then
          let scat := (scene.mediums.getD (hitRay.medium_list.mediums.getD 0 0) defaultMedium) hitRay
          Scene.raycastCheckedLoop scene skybox fuel
            (if scat.1 then scat.2
             else (scene.materials.getD shape.material defaultMaterial) uv shape scat.2)
        else none
    else some ray

/-- The checked raycast entry point. -/
def Scene.raycastChecked (scene : Scene) (skybox : Vec3 ℚ → Vec3 ℚ)
    (max_bounces : ℕ) (ray : Ray ℚ) : Option (Ray ℚ) :=
  Scene.raycastCheckedLoop scene skybox max_bounces ray

/-- Embedding of `AGPTracer::Materials::Diffuse_t<T>`
(`materials/Diffuse_t.tpp`): emission, albedo colour and roughness. -/
structure Diffuse where
  emission : Vec3 ℝ
  colour : Vec3 ℝ
  roughness : ℝ

/-- Embedding of `Diffuse_t::bounce(random_generator, uv, hit_obj, ray)`.
`hitNormal` is the interpolated normal the source fetches first through
`hit_obj.normal(ray.time_, uv)`; `unif1` and `unif2` are the two uniform
draws `unif_(random_generator())` in `[0, 1)`.  The source computes
`rand1 = unif1 * 2 * pi`, `rand2 = unif2`, `rand2s = sqrt(rand2)`, flips the
normal against the incoming direction, builds the orthonormal frame `u, v`
from a helper axis, samples the cosine-weighted direction, then offsets the
origin, accumulates emission into the colour and attenuates the mask by
`colour_ * pow(newdir.dot(normal), roughness_)`. -/
noncomputable def Diffuse.bounce (mat : Diffuse) (hitNormal : Vec3 ℝ)
    (unif1 unif2 : ℝ) (ray : Ray ℝ) : Ray ℝ :=
  let rand1 := unif1 * 2 * Real.pi
  let rand2 := unif2
  let rand2s := Real.sqrt rand2
  let normal := if hitNormal.dot ray.direction > 0 then hitNormal.neg else hitNormal
  let axis : Vec3 ℝ := if |normal.x| > 1 / 10 then ⟨0, 1, 0⟩ else ⟨1, 0, 0⟩
  let u := (axis.cross normal).normalize
  let v := (normal.cross u).normalize
  let newdir :=
    ((((u.smul (Real.cos rand1)).smul rand2s).add
        ((v.smul (Real.sin rand1)).smul rand2s)).add
      (normal.smul (Real.sqrt (1 - rand2)))).normalize
  { ray with
    origin := ray.origin.add ((ray.direction.smul ray.dist).add (normal.smul (1 / 100000))),
    direction := newdir,
    colour := ray.colour.add (ray.mask.mulV mat.emission),
    mask := ray.mask.mulV (mat.colour.smul ((newdir.dot normal) ^ mat.roughness)) }

/-- The cosine factor `newdir.dot(normal)` computed inside
`Diffuse_t::bounce`, exposed as its own value (it does not depend on the
material parameters). -/
noncomputable def Diffuse.bounceCosine (hitNormal : Vec3 ℝ) (unif1 unif2 : ℝ)
    (ray : Ray ℝ) : ℝ :=
  let rand1 := unif1 * 2 * Real.pi
  let rand2 := unif2
  let rand2s := Real.sqrt rand2
  let normal := if hitNormal.dot ray.direction > 0 then hitNormal.neg else hitNormal
  let axis : Vec3 ℝ := if |normal.x| > 1 / 10 then ⟨0, 1, 0⟩ else ⟨1, 0, 0⟩
  let u := (axis.cross normal).normalize
  let v := (normal.cross u).normalize
  let newdir :=
    ((((u.smul (Real.cos rand1)).smul rand2s).add
        ((v.smul (Real.sin rand1)).smul rand2s)).add
      (normal.smul (Real.sqrt (1 - rand2)))).normalize
  newdir.dot normal

/-- One pixel slot of `AGPTracer::Images::SimpleImage_t<T>`
(`images/SimpleImage_t.tpp`): the accumulated colour of that pixel in `img_`
together with the shared iteration counter `updates_`. -/
structure PixelState where
  acc : Vec3 ℝ
  updates : ℕ

/-- The freshly constructed (or `reset()`) state: the buffer is zero-filled
and `updates_ = 0`. -/
noncomputable def PixelState.init : PixelState :=
  ⟨⟨0, 0, 0⟩, 0⟩

/-- One `SphericalCamera_t::raytrace` iteration seen from one pixel slot:
`image_.update()` increments `updates_` and the kernel adds the iteration
colour through `SimpleImage_t::Accessor_t::update(colour, pos)`. -/
noncomputable def PixelState.update (s : PixelState) (c : Vec3 ℝ) : PixelState :=
  ⟨s.acc.add c, s.updates + 1⟩

/-- `n` accumulation iterations each contributing the same colour `c`,
starting from the freshly constructed image. -/
noncomputable def PixelState.accumulateConst (c : Vec3 ℝ) : ℕ → PixelState
  | 0 => PixelState.init
  | n + 1 => (PixelState.accumulateConst c n).update c

/-- The per-pixel colour pipeline of `SimpleImage_t::write(filename,
gammaind)` before quantization: multiply the accumulated colour by
`update_mult = 1 / updates_`, raise each channel to `gammaind`
(`pow_inplace`), then clamp to `[0, 1]`.  The subsequent scaling by
`2^16 - 1` and rounding to the integer raster is the quantization step and
is not modelled. -/
noncomputable def PixelState.writeColour (s : PixelState) (gammaind : ℝ) : Vec3 ℝ :=
  let update_mult := 1 / (s.updates : ℝ)
  ((s.acc.smul update_mult).powV gammaind).clampV 0 1

/-- Embedding of the single-element `Scene_t::remove(shape)`
(`entities/Scene_t.tpp`): `host_accessor.erase(std::remove(begin, end,
shape), end)`.  The erase-remove idiom keeps, in order, exactly the elements
that do not compare equal to `shape`. -/
def Scene.removeShape {β : Type} [DecidableEq β] (shapes : List β) (shape : β) : List β :=
  shapes.filter fun x => decide (x ≠ shape)

/-- Embedding of the span overload `Scene_t::remove(std::span shapes)`: one
`std::remove` pass per target over the surviving prefix, then a single
erase, which keeps exactly the elements equal to no target. -/
def Scene.removeShapeSpan {β : Type} [DecidableEq β] (shapes : List β)
    (targets : List β) : List β :=
  targets.foldl (fun acc s => Scene.removeShape acc s) shapes

/-! Theorems. -/

/-- C10: calling raycast with `max_bounces = 0` terminates immediately: the
loop condition `bounces < max_bounces` fails before any intersection test,
medium scatter or material bounce, and every field of the ray (origin,
direction, colour, mask, dist, medium list, time) is returned unchanged; in
particular no skybox contribution is added.  The equality holds for every
scene, skybox and ray, so no query of the scene or skybox can have been
observed. -/
theorem Scene.raycast_max_bounces_zero (scene : Scene) (skybox : Vec3 ℚ → Vec3 ℚ)
    (ray : Ray ℚ) : Scene.raycast scene skybox 0 ray = ray := rfl

theorem Scene.raycastLoop_eq_fromSpec (scene : Scene) (skybox : Vec3 ℚ → Vec3 ℚ) :
    ∀ (fuel bounces : ℕ) (ray : Ray ℚ),
      Scene.raycastLoop scene skybox fuel ray =
        Scene.raycastFromSpec scene skybox (bounces + fuel) bounces ray := by
  intro fuel
  induction fuel with
  | zero =>
    intro bounces ray
    rw [Scene.raycastLoop, Scene.raycastFromSpec]
    simp
  | succ fuel ih =>
    intro bounces ray
    rw [Scene.raycastLoop, Scene.raycastFromSpec]
    by_cases hm : ray.mask.magnitudeSquared > 1 / 100
    · rw [if_pos hm, dif_pos (And.intro (by omega) hm)]
      cases hInt : Scene.intersect_brute scene.shapes ray with
      | none => rfl
      | some val =>
        obtain ⟨t, uv, shape⟩ := val
        simp only
        rw [apply_ite (Scene.raycastLoop scene skybox fuel), ih (bounces + 1),
          ih (bounces + 1)]
        have hpl : bounces + 1 + fuel = bounces + (fuel + 1) := by omega
        rw [hpl]
    · rw [if_neg hm, dif_neg (by tauto)]

/-- C1: the source raycast loop coincides, for every scene, skybox,
`max_bounces` and ray, with the loop as the specification words it: while
`bounces < max_bounces` and `mask.magnitudeSquared() > 0.01`, intersect
against all shapes; on a miss add `mask * skybox.get(direction)` to the
colour and terminate; on a hit set `ray.dist` to the hit `t`, increment the
bounce count, ask the active medium (`mediums[0]`) to scatter, and invoke
the hit shape material bounce exactly when scatter returned false. -/
theorem Scene.raycast_eq_raycastFromSpec (scene : Scene) (skybox : Vec3 ℚ → Vec3 ℚ)
    (max_bounces : ℕ) (ray : Ray ℚ) :
    Scene.raycast scene skybox max_bounces ray =
      Scene.raycastFromSpec scene skybox max_bounces 0 ray := by
  have h := Scene.raycastLoop_eq_fromSpec scene skybox max_bounces 0 ray
  simpa [Scene.raycast] using h

/-- C2: the claimed value-preserving right shift fails on the code.  With
mediums of priorities 10, 5, 1 (indices 0, 1, 2) live in the list and a new
medium of priority 7 (index 3) inserted, the inner loop
`mediums_[j + 1] = mediums_[j]` runs upward and so duplicates the entry at
the insertion point instead of shifting: the result keeps index 1 twice and
loses index 2, giving live entries `[0, 3, 1, 1]` where a true insertion
gives `[0, 3, 1, 2]`. -/
theorem MediumList.add_to_mediums_failing_input :
    MediumList.add_to_mediums (fun idx => [10, 5, 1, 7].getD idx 0)
        ⟨3, [0, 1, 2, 0, 0, 0, 0, 0, 0, 0, 0, 0, 0, 0, 0, 0]⟩ 3 =
      ⟨4, [0, 3, 1, 1, 0, 0, 0, 0, 0, 0, 0, 0, 0, 0, 0, 0]⟩ := by
  decide

/-- C3 counterexample: the ray from `(0, 2, -1)` with direction `(0, 0, 1)`
lies inside the plane `y = 2` of the triangle `(0,2,0), (1,2,0), (0,2,1)`,
so the Moeller-Trumbore determinant is exactly zero and the code reports no
intersection, not a hit at `t = 1`, `uv = (0, 0)` as claimed. -/
theorem Triangle.ground_truth_ray_reports_no_hit :
    Triangle.intersection
        (Triangle.construct 0 TransformMatrix.identity ⟨0, 2, 0⟩ ⟨1, 2, 0⟩ ⟨0, 2, 1⟩)
        ⟨⟨0, 2, -1⟩, ⟨0, 0, 1⟩, ⟨0, 0, 0⟩, ⟨1, 1, 1⟩, 0, ⟨0, []⟩, 1⟩ = none := by
  norm_num [Triangle.construct, TransformMatrix.identity, TransformMatrix.multVec,
    Triangle.intersection, Vec3.cross, Vec3.dot, Vec3.sub, doubleMinPos]

/-- C3 amended: both probe rays report no intersection against the triangle
`(0,2,0), (1,2,0), (0,2,1)` under the identity transform.  The ray from
`(0, 2, -1)` with direction `(0, 0, 1)` travels inside the triangle plane
`y = 2`, so it is rejected by the parallel test `|det| < eps`; the ray with
direction `(0, 1, 0)` is rejected by the barycentric test, its `v`
coordinate being `-1 < 0`. -/
theorem Triangle.ground_truth_amended :
    Triangle.intersection
        (Triangle.construct 0 TransformMatrix.identity ⟨0, 2, 0⟩ ⟨1, 2, 0⟩ ⟨0, 2, 1⟩)
        ⟨⟨0, 2, -1⟩, ⟨0, 0, 1⟩, ⟨0, 0, 0⟩, ⟨1, 1, 1⟩, 0, ⟨0, []⟩, 1⟩ = none ∧
    Triangle.intersection
        (Triangle.construct 0 TransformMatrix.identity ⟨0, 2, 0⟩ ⟨1, 2, 0⟩ ⟨0, 2, 1⟩)
        ⟨⟨0, 2, -1⟩, ⟨0, 1, 0⟩, ⟨0, 0, 0⟩, ⟨1, 1, 1⟩, 0, ⟨0, []⟩, 1⟩ = none := by
  constructor
  · norm_num [Triangle.construct, TransformMatrix.identity, TransformMatrix.multVec,
      Triangle.intersection, Vec3.cross, Vec3.dot, Vec3.sub, doubleMinPos]
  · norm_num [Triangle.construct, TransformMatrix.identity, TransformMatrix.multVec,
      Triangle.intersection, Vec3.cross, Vec3.dot, Vec3.sub, doubleMinPos]

theorem Scene.removeShape_count_self {β : Type} [DecidableEq β] (l : List β) (v : β) :
    (Scene.removeShape l v).count v = 0 := by
  simp [Scene.removeShape, List.count_eq_zero, List.mem_filter]

theorem Scene.removeShape_count_ne {β : Type} [DecidableEq β] (l : List β) (v x : β)
    (h : x ≠ v) : (Scene.removeShape l v).count x = l.count x := by
  unfold Scene.removeShape
  exact List.count_filter (by simpa using h)

theorem Scene.removeShapeSpan_count {β : Type} [DecidableEq β] :
    ∀ (targets l : List β) (x : β),
      (Scene.removeShapeSpan l targets).count x =
        if x ∈ targets then 0 else l.count x := by
  intro targets
  induction targets with
  | nil =>
    intro l x
    simp [Scene.removeShapeSpan]
  | cons t ts ih =>
    intro l x
    have hstep : Scene.removeShapeSpan l (t :: ts) =
        Scene.removeShapeSpan (Scene.removeShape l t) ts := rfl
    rw [hstep, ih]
    by_cases hx : x ∈ ts
    · simp [hx]
    · by_cases hxt : x = t
      · subst hxt
        simp [hx, Scene.removeShape_count_self]
      · simp [hx, hxt, Scene.removeShape_count_ne l t x hxt]

/-- C8 counterexample: the single-element remove uses the erase-remove
idiom, so on a collection holding two elements equal to the target it
removes both, not only the first as claimed. -/
theorem Scene.removeShape_removes_every_copy :
    Scene.removeShape [1, 1] (1 : ℕ) = [] ∧ Scene.removeShape [1, 1] (1 : ℕ) ≠ [1] := by
  decide

/-- C8 amended: both the single-element remove and the span overload are
multiset-aware: each removes every element equal to its target (the
single-element remove via one erase-remove pass, the span overload via one
pass per target), and the multiplicity of every other element is
preserved. -/
theorem Scene.removeShape_multiset_spec {β : Type} [DecidableEq β] (shapes : List β)
    (shape : β) (targets : List β) :
    (Scene.removeShape shapes shape).count shape = 0 ∧
    (∀ x, x ≠ shape → (Scene.removeShape shapes shape).count x = shapes.count x) ∧
    (∀ t, t ∈ targets → (Scene.removeShapeSpan shapes targets).count t = 0) ∧
    (∀ x, x ∉ targets → (Scene.removeShapeSpan shapes targets).count x = shapes.count x) := by
  refine ⟨Scene.removeShape_count_self shapes shape,
    fun x hx => Scene.removeShape_count_ne shapes shape x hx,
    fun t ht => ?_, fun x hx => ?_⟩
  · rw [Scene.removeShapeSpan_count]
    simp [ht]
  · rw [Scene.removeShapeSpan_count]
    simp [hx]

/-- Witness for the amended C8 theorem at a concrete input: removing the
duplicated shape `1` from `[1, 1, 2]` preserves the multiplicity of `2`. -/
theorem Scene.removeShape_multiset_spec_witness :
    (Scene.removeShape [1, 1, 2] (1 : ℕ)).count 2 = [1, 1, 2].count 2 :=
  (Scene.removeShape_multiset_spec [1, 1, 2] 1 []).2.1 2 (by decide)

theorem MediumList.getD_set_self (l : List ℕ) (i v : ℕ) (h : i < l.length) :
    (l.set i v).getD i 0 = v := by
  simp [List.getD_eq_getElem?_getD, List.getElem?_set, h]

theorem MediumList.getD_set_ne (l : List ℕ) (i j v : ℕ) (h : i ≠ j) :
    (l.set i v).getD j 0 = l.getD j 0 := by
  simp [List.getD_eq_getElem?_getD, List.getElem?_set, h]

theorem MediumList.removeShiftLoop_length :
    ∀ (c : ℕ) (meds : List ℕ) (j : ℕ),
      (MediumList.removeShiftLoop meds j c).length = meds.length := by
  intro c
  induction c with
  | zero =>
    intro meds j
    rfl
  | succ c ih =>
    intro meds j
    rw [MediumList.removeShiftLoop, ih]
    simp

theorem MediumList.removeShiftLoop_getD_lt :
    ∀ (c : ℕ) (meds : List ℕ) (j k : ℕ), k < j →
      (MediumList.removeShiftLoop meds j c).getD k 0 = meds.getD k 0 := by
  intro c
  induction c with
  | zero =>
    intro meds j k _
    rfl
  | succ c ih =>
    intro meds j k hk
    rw [MediumList.removeShiftLoop, ih _ _ _ (by omega)]
    exact MediumList.getD_set_ne meds j k _ (by omega)

theorem MediumList.removeShiftLoop_getD_shift :
    ∀ (c : ℕ) (meds : List ℕ) (j k : ℕ), j ≤ k → k < j + c → j + c < meds.length →
      (MediumList.removeShiftLoop meds j c).getD k 0 = meds.getD (k + 1) 0 := by
  intro c
  induction c with
  | zero =>
    intro meds j k h1 h2 _
    omega
  | succ c ih =>
    intro meds j k h1 h2 h3
    rw [MediumList.removeShiftLoop]
    by_cases hk : k = j
    · subst hk
      rw [MediumList.removeShiftLoop_getD_lt c _ (k + 1) k (by omega)]
      exact MediumList.getD_set_self meds k _ (by omega)
    · have hlen : (meds.set j (meds.getD (j + 1) 0)).length = meds.length := by simp
      rw [ih (meds.set j (meds.getD (j + 1) 0)) (j + 1) k (by omega) (by omega) (by omega)]
      exact MediumList.getD_set_ne meds j (k + 1) _ (by omega)

theorem MediumList.removeScanLoop_not_found :
    ∀ (c : ℕ) (lst : MediumList) (m i : ℕ),
      (∀ j, i ≤ j → j < i + c → lst.mediums.getD j 0 ≠ m) →
      MediumList.removeScanLoop lst m i c = lst := by
  intro c
  induction c with
  | zero =>
    intro lst m i _
    rfl
  | succ c ih =>
    intro lst m i h
    rw [MediumList.removeScanLoop, if_neg (h i le_rfl (by omega))]
    exact ih lst m (i + 1) (fun j hj1 hj2 => h j (by omega) (by omega))

theorem MediumList.removeScanLoop_found :
    ∀ (c : ℕ) (lst : MediumList) (m i k : ℕ),
      i ≤ k → k < i + c → lst.mediums.getD k 0 = m →
      (∀ j, i ≤ j → j < k → lst.mediums.getD j 0 ≠ m) →
      MediumList.removeScanLoop lst m i c =
        ⟨lst.n_mediums - 1,
          MediumList.removeShiftLoop lst.mediums k (lst.n_mediums - 1 - k)⟩ := by
  intro c
  induction c with
  | zero =>
    intro lst m i k h1 h2 _ _
    omega
  | succ c ih =>
    intro lst m i k h1 h2 hm hfirst
    by_cases hik : i = k
    · subst hik
      rw [MediumList.removeScanLoop, if_pos hm]
    · rw [MediumList.removeScanLoop, if_neg (hfirst i le_rfl (by omega))]
      exact ih lst m (i + 1) k (by omega) (by omega) hm
        (fun j hj1 hj2 => hfirst j (by omega) hj2)

/-- C9: `remove_from_mediums` removes exactly the first occurrence of the
medium.  When the medium does not occur among the live entries the list is
returned completely unchanged; when the first occurrence is at index `i`,
the count drops by one, the backing length is unchanged, every live entry
before `i` keeps its value and every later live entry moves one slot to the
left. -/
theorem MediumList.remove_from_mediums_spec (lst : MediumList) (m : ℕ)
    (hn : lst.n_mediums ≤ lst.mediums.length) :
    ((∀ j, j < lst.n_mediums → lst.mediums.getD j 0 ≠ m) →
        MediumList.remove_from_mediums lst m = lst) ∧
    (∀ i, i < lst.n_mediums → lst.mediums.getD i 0 = m →
      (∀ j, j < i → lst.mediums.getD j 0 ≠ m) →
      (MediumList.remove_from_mediums lst m).n_mediums = lst.n_mediums - 1 ∧
      (MediumList.remove_from_mediums lst m).mediums.length = lst.mediums.length ∧
      (∀ j, j < i →
        (MediumList.remove_from_mediums lst m).mediums.getD j 0 = lst.mediums.getD j 0) ∧
      (∀ j, i ≤ j → j + 1 < lst.n_mediums →
        (MediumList.remove_from_mediums lst m).mediums.getD j 0 =
          lst.mediums.getD (j + 1) 0)) := by
  constructor
  · intro h
    exact MediumList.removeScanLoop_not_found lst.n_mediums lst m 0
      (fun j _ hj => h j (by omega))
  · intro i hi hm hfirst
    have heq : MediumList.remove_from_mediums lst m =
        ⟨lst.n_mediums - 1,
          MediumList.removeShiftLoop lst.mediums i (lst.n_mediums - 1 - i)⟩ :=
      MediumList.removeScanLoop_found lst.n_mediums lst m 0 i (by omega) (by omega) hm
        (fun j _ hj => hfirst j hj)
    refine ⟨by rw [heq], ?_, ?_, ?_⟩
    · rw [heq]
      exact MediumList.removeShiftLoop_length _ _ _
    · intro j hj
      rw [heq]
      exact MediumList.removeShiftLoop_getD_lt _ _ _ _ hj
    · intro j hj1 hj2
      rw [heq]
      exact MediumList.removeShiftLoop_getD_shift _ _ _ _ hj1 (by omega) (by omega)

/-- Witness for the C9 theorem at a concrete input: removing medium `7` from
the live entries `[4, 7, 7]` (capacity 4) drops the count from 3 to 2. -/
theorem MediumList.remove_from_mediums_spec_witness :
    (MediumList.remove_from_mediums ⟨3, [4, 7, 7, 0]⟩ 7).n_mediums = 2 :=
  ((MediumList.remove_from_mediums_spec ⟨3, [4, 7, 7, 0]⟩ 7 (by decide)).2 1 (by decide)
    (by decide) (by decide)).1

theorem Scene.raycastCheckedLoop_eq (scene : Scene) (skybox : Vec3 ℚ → Vec3 ℚ)
    (hmed : ∀ f ∈ scene.mediums, ∀ r : Ray ℚ,
      Scene.MediumAccessOk scene r → Scene.MediumAccessOk scene (f r).2)
    (hmat : ∀ g ∈ scene.materials, ∀ (uv : ℚ × ℚ) (shape : Triangle) (r : Ray ℚ),
      Scene.MediumAccessOk scene r → Scene.MediumAccessOk scene (g uv shape r)) :
    ∀ (fuel : ℕ) (ray : Ray ℚ), Scene.MediumAccessOk scene ray →
      Scene.raycastCheckedLoop scene skybox fuel ray =
        some (Scene.raycastLoop scene skybox fuel ray) := by
  intro fuel
  induction fuel with
  | zero =>
    intro ray _
    rfl
  | succ fuel ih =>
    intro ray h0
    rw [Scene.raycastCheckedLoop, Scene.raycastLoop]
    by_cases hmk : ray.mask.magnitudeSquared > 1 / 100
    · rw [if_pos hmk, if_pos hmk]
      cases hInt : Scene.intersect_brute scene.shapes ray with
      | none => rfl
      | some val =>
        obtain ⟨t, uv, shape⟩ := val
        simp only
        have hOk : Scene.MediumAccessOk scene { ray with dist := t } := h0
        rw [if_pos hOk]
        apply ih
        have hmem : scene.mediums.getD
            (({ ray with dist := t } : Ray ℚ).medium_list.mediums.getD 0 0)
            defaultMedium ∈ scene.mediums := by
          rw [List.getD_eq_getElem _ _ hOk.2]
          exact List.getElem_mem _
        have hscat := hmed _ hmem { ray with dist := t } hOk
        by_cases hs : ((scene.mediums.getD
            (({ ray with dist := t } : Ray ℚ).medium_list.mediums.getD 0 0)
            defaultMedium) { ray with dist := t }).1
        · rw [if_pos hs]
          exact hscat
        · rw [if_neg hs]
          by_cases hmlen : shape.material < scene.materials.length
          · have hmm : scene.materials.getD shape.material defaultMaterial ∈
                scene.materials := by
              rw [List.getD_eq_getElem _ _ hmlen]
              exact List.getElem_mem _
            exact hmat _ hmm uv shape _ hscat
          · rw [List.getD_eq_default _ _ (le_of_not_lt hmlen)]
            exact hscat
    · rw [if_neg hmk, if_neg hmk]

/-- C7: every hit iteration of the raycast loop reads the active medium as
`medium_list_.mediums_[0]` and indexes the medium collection of the scene
with it, without any emptiness or bounds check.  Provided the ray satisfies
the in-bounds precondition (non-empty medium list whose front entry indexes
the medium collection) and every medium scatter and material bounce of the
scene preserves that precondition, the guarded (option-returning) variant of
the loop never reaches its error branch: it returns exactly the unchecked
source loop result. -/
theorem Scene.raycastChecked_never_errors (scene : Scene) (skybox : Vec3 ℚ → Vec3 ℚ)
    (max_bounces : ℕ) (ray : Ray ℚ)
    (h0 : Scene.MediumAccessOk scene ray)
    (hmed : ∀ f ∈ scene.mediums, ∀ r : Ray ℚ,
      Scene.MediumAccessOk scene r → Scene.MediumAccessOk scene (f r).2)
    (hmat : ∀ g ∈ scene.materials, ∀ (uv : ℚ × ℚ) (shape : Triangle) (r : Ray ℚ),
      Scene.MediumAccessOk scene r → Scene.MediumAccessOk scene (g uv shape r)) :
    Scene.raycastChecked scene skybox max_bounces ray =
      some (Scene.raycast scene skybox max_bounces ray) :=
  Scene.raycastCheckedLoop_eq scene skybox hmed hmat max_bounces ray h0

/-- Witness for the C7 theorem: a one-triangle scene whose single medium is
the identity scatter and whose single material is the identity bounce, with
a ray that hits the triangle and carries one valid medium index. -/
theorem Scene.raycastChecked_never_errors_witness :
    Scene.raycastChecked
        ⟨[Triangle.construct 0 TransformMatrix.identity ⟨0, 2, 0⟩ ⟨1, 2, 0⟩ ⟨0, 2, 1⟩],
          [fun _ _ r => r], [fun r => (false, r)]⟩
        (fun _ => ⟨1, 1, 1⟩) 2
        ⟨⟨1 / 4, 0, 1 / 4⟩, ⟨0, 1, 0⟩, ⟨0, 0, 0⟩, ⟨1, 1, 1⟩, 0, ⟨1, [0]⟩, 1⟩ =
      some (Scene.raycast
        ⟨[Triangle.construct 0 TransformMatrix.identity ⟨0, 2, 0⟩ ⟨1, 2, 0⟩ ⟨0, 2, 1⟩],
          [fun _ _ r => r], [fun r => (false, r)]⟩
        (fun _ => ⟨1, 1, 1⟩) 2
        ⟨⟨1 / 4, 0, 1 / 4⟩, ⟨0, 1, 0⟩, ⟨0, 0, 0⟩, ⟨1, 1, 1⟩, 0, ⟨1, [0]⟩, 1⟩) := by
  apply Scene.raycastChecked_never_errors
  · exact ⟨by norm_num, by norm_num⟩
  · intro f hf r hr
    rcases List.mem_singleton.mp hf with rfl
    exact hr
  · intro g hg uv shape r hr
    rcases List.mem_singleton.mp hg with rfl
    exact hr

theorem PixelState.accumulateConst_state (c : Vec3 ℝ) :
    ∀ n : ℕ, (PixelState.accumulateConst c n).acc =
        ⟨(n : ℝ) * c.x, (n : ℝ) * c.y, (n : ℝ) * c.z⟩ ∧
      (PixelState.accumulateConst c n).updates = n := by
  intro n
  induction n with
  | zero =>
    constructor
    · simp [PixelState.accumulateConst, PixelState.init]
    · rfl
  | succ n ih =>
    constructor
    · rw [PixelState.accumulateConst]
      show ((PixelState.accumulateConst c n).acc).add c = _
      rw [ih.1]
      simp only [Vec3.add, Vec3.mk.injEq]
      push_cast
      refine ⟨by ring, by ring, by ring⟩
    · rw [PixelState.accumulateConst]
      show (PixelState.accumulateConst c n).updates + 1 = n + 1
      rw [ih.2]

/-- C6: accumulating `n >= 1` iterations of the same colour `c` (channels in
`[0, 1]`) and then writing yields, for every `n`, the same pre-quantization
output: the sum is divided by the update count first, recovering `c`, and
only then gamma-corrected and clamped, so the result equals
`clamp(c, 0, 1) ^ gammaind` per channel (averaging then gamma, never gamma
then averaging). -/
theorem PixelState.write_average_then_gamma (c : Vec3 ℝ) (g : ℝ) (n : ℕ)
    (hn : 1 ≤ n)
    (hx : 0 ≤ c.x ∧ c.x ≤ 1) (hy : 0 ≤ c.y ∧ c.y ≤ 1) (hz : 0 ≤ c.z ∧ c.z ≤ 1)
    (hg : 0 ≤ g) :
    PixelState.writeColour (PixelState.accumulateConst c n) g =
        Vec3.powV (Vec3.clampV c 0 1) g ∧
      PixelState.writeColour (PixelState.accumulateConst c n) g =
        PixelState.writeColour (PixelState.accumulateConst c 1) g := by
  have key : ∀ m : ℕ, 1 ≤ m →
      PixelState.writeColour (PixelState.accumulateConst c m) g =
        Vec3.powV (Vec3.clampV c 0 1) g := by
    intro m hm
    obtain ⟨hacc, hupd⟩ := PixelState.accumulateConst_state c m
    have hm0 : (m : ℝ) ≠ 0 := Nat.cast_ne_zero.mpr (by omega)
    unfold PixelState.writeColour
    rw [hacc, hupd]
    simp only [Vec3.smul, Vec3.powV, Vec3.clampV, Vec3.mk.injEq]
    have hcx : (m : ℝ) * c.x * (1 / (m : ℝ)) = c.x := by field_simp
    have hcy : (m : ℝ) * c.y * (1 / (m : ℝ)) = c.y := by field_simp
    have hcz : (m : ℝ) * c.z * (1 / (m : ℝ)) = c.z := by field_simp
    rw [hcx, hcy, hcz]
    refine ⟨?_, ?_, ?_⟩
    · rw [min_eq_left hx.2, max_eq_left hx.1,
        min_eq_left (Real.rpow_le_one hx.1 hx.2 hg),
        max_eq_left (Real.rpow_nonneg hx.1 g)]
    · rw [min_eq_left hy.2, max_eq_left hy.1,
        min_eq_left (Real.rpow_le_one hy.1 hy.2 hg),
        max_eq_left (Real.rpow_nonneg hy.1 g)]
    · rw [min_eq_left hz.2, max_eq_left hz.1,
        min_eq_left (Real.rpow_le_one hz.1 hz.2 hg),
        max_eq_left (Real.rpow_nonneg hz.1 g)]
  exact ⟨key n hn, (key n hn).trans (key 1 le_rfl).symm⟩

/-- Witness for the C6 theorem: three iterations of the constant colour
`(1/2, 1/2, 1/2)` written with `gammaind = 2`. -/
theorem PixelState.write_average_then_gamma_witness :
    PixelState.writeColour (PixelState.accumulateConst ⟨1 / 2, 1 / 2, 1 / 2⟩ 3) 2 =
      Vec3.powV (Vec3.clampV ⟨1 / 2, 1 / 2, 1 / 2⟩ 0 1) 2 :=
  (PixelState.write_average_then_gamma ⟨1 / 2, 1 / 2, 1 / 2⟩ 2 3 (by norm_num)
    (by norm_num) (by norm_num) (by norm_num) (by norm_num)).1

set_option maxHeartbeats 1000000 in
theorem TransformMatrix.matMul_invert (M : TransformMatrix) (hdet : M.det ≠ 0) :
    TransformMatrix.matMul M M.invert = TransformMatrix.identity := by
  simp only [TransformMatrix.det] at hdet
  simp only [TransformMatrix.matMul, TransformMatrix.invert, TransformMatrix.identity,
    TransformMatrix.mk.injEq]
  refine ⟨?_, ?_, ?_, ?_, ?_, ?_, ?_, ?_, ?_, ?_, ?_, ?_, ?_, ?_, ?_, ?_⟩
  all_goals field_simp
  all_goals ring

theorem TransformMatrix.roundtrip_component_x
    (m0 m1 m2 m3 m4 m5 m6 m7 m8 m9 m10 m11 m12 m13 m14 m15 : ℚ)
    (N0 N3 N4 N7 N8 N11 N12 N15 : ℚ) (vx vy vz : ℚ)
    (h0 : m0 * N0 + m1 * N4 + m2 * N8 + m3 * N12 = 1)
    (h3 : m0 * N3 + m1 * N7 + m2 * N11 + m3 * N15 = 0)
    (h4 : m4 * N0 + m5 * N4 + m6 * N8 + m7 * N12 = 0)
    (h7 : m4 * N3 + m5 * N7 + m6 * N11 + m7 * N15 = 0)
    (h8 : m8 * N0 + m9 * N4 + m10 * N8 + m11 * N12 = 0)
    (h11 : m8 * N3 + m9 * N7 + m10 * N11 + m11 * N15 = 0)
    (h12 : m12 * N0 + m13 * N4 + m14 * N8 + m15 * N12 = 0)
    (h15 : m12 * N3 + m13 * N7 + m14 * N11 + m15 * N15 = 1)
    (hw : vx * m3 + vy * m7 + vz * m11 + m15 ≠ 0) :
    (((vx * m0 + vy * m4 + vz * m8 + m12) / (vx * m3 + vy * m7 + vz * m11 + m15)) * N0 +
        ((vx * m1 + vy * m5 + vz * m9 + m13) / (vx * m3 + vy * m7 + vz * m11 + m15)) * N4 +
        ((vx * m2 + vy * m6 + vz * m10 + m14) / (vx * m3 + vy * m7 + vz * m11 + m15)) * N8 + N12) /
      (((vx * m0 + vy * m4 + vz * m8 + m12) / (vx * m3 + vy * m7 + vz * m11 + m15)) * N3 +
        ((vx * m1 + vy * m5 + vz * m9 + m13) / (vx * m3 + vy * m7 + vz * m11 + m15)) * N7 +
        ((vx * m2 + vy * m6 + vz * m10 + m14) / (vx * m3 + vy * m7 + vz * m11 + m15)) * N11 + N15) = vx := by
  have hden : (vx * m0 + vy * m4 + vz * m8 + m12) * N3 +
      (vx * m1 + vy * m5 + vz * m9 + m13) * N7 +
      (vx * m2 + vy * m6 + vz * m10 + m14) * N11 +
      (vx * m3 + vy * m7 + vz * m11 + m15) * N15 = 1 := by
    linear_combination vx * h3 + vy * h7 + vz * h11 + h15
  have hnum : (vx * m0 + vy * m4 + vz * m8 + m12) * N0 +
      (vx * m1 + vy * m5 + vz * m9 + m13) * N4 +
      (vx * m2 + vy * m6 + vz * m10 + m14) * N8 +
      (vx * m3 + vy * m7 + vz * m11 + m15) * N12 = vx := by
    linear_combination vx * h0 + vy * h4 + vz * h8 + h12
  have hW2 : ((vx * m0 + vy * m4 + vz * m8 + m12) / (vx * m3 + vy * m7 + vz * m11 + m15)) * N3 +
        ((vx * m1 + vy * m5 + vz * m9 + m13) / (vx * m3 + vy * m7 + vz * m11 + m15)) * N7 +
        ((vx * m2 + vy * m6 + vz * m10 + m14) / (vx * m3 + vy * m7 + vz * m11 + m15)) * N11 + N15 =
      1 / (vx * m3 + vy * m7 + vz * m11 + m15) := by
    field_simp
    linear_combination hden
  rw [hW2, div_eq_mul_inv, one_div, inv_inv]
  field_simp
  linear_combination hnum


theorem TransformMatrix.roundtrip_component_y
    (m0 m1 m2 m3 m4 m5 m6 m7 m8 m9 m10 m11 m12 m13 m14 m15 : ℚ)
    (N1 N3 N5 N7 N9 N11 N13 N15 : ℚ) (vx vy vz : ℚ)
    (h1 : m0 * N1 + m1 * N5 + m2 * N9 + m3 * N13 = 0)
    (h3 : m0 * N3 + m1 * N7 + m2 * N11 + m3 * N15 = 0)
    (h5 : m4 * N1 + m5 * N5 + m6 * N9 + m7 * N13 = 1)
    (h7 : m4 * N3 + m5 * N7 + m6 * N11 + m7 * N15 = 0)
    (h9 : m8 * N1 + m9 * N5 + m10 * N9 + m11 * N13 = 0)
    (h11 : m8 * N3 + m9 * N7 + m10 * N11 + m11 * N15 = 0)
    (h13 : m12 * N1 + m13 * N5 + m14 * N9 + m15 * N13 = 0)
    (h15 : m12 * N3 + m13 * N7 + m14 * N11 + m15 * N15 = 1)
    (hw : vx * m3 + vy * m7 + vz * m11 + m15 ≠ 0) :
    (((vx * m0 + vy * m4 + vz * m8 + m12) / (vx * m3 + vy * m7 + vz * m11 + m15)) * N1 +
        ((vx * m1 + vy * m5 + vz * m9 + m13) / (vx * m3 + vy * m7 + vz * m11 + m15)) * N5 +
        ((vx * m2 + vy * m6 + vz * m10 + m14) / (vx * m3 + vy * m7 + vz * m11 + m15)) * N9 + N13) /
      (((vx * m0 + vy * m4 + vz * m8 + m12) / (vx * m3 + vy * m7 + vz * m11 + m15)) * N3 +
        ((vx * m1 + vy * m5 + vz * m9 + m13) / (vx * m3 + vy * m7 + vz * m11 + m15)) * N7 +
        ((vx * m2 + vy * m6 + vz * m10 + m14) / (vx * m3 + vy * m7 + vz * m11 + m15)) * N11 + N15) = vy := by
  have hden : (vx * m0 + vy * m4 + vz * m8 + m12) * N3 +
      (vx * m1 + vy * m5 + vz * m9 + m13) * N7 +
      (vx * m2 + vy * m6 + vz * m10 + m14) * N11 +
      (vx * m3 + vy * m7 + vz * m11 + m15) * N15 = 1 := by
    linear_combination vx * h3 + vy * h7 + vz * h11 + h15
  have hnum : (vx * m0 + vy * m4 + vz * m8 + m12) * N1 +
      (vx * m1 + vy * m5 + vz * m9 + m13) * N5 +
      (vx * m2 + vy * m6 + vz * m10 + m14) * N9 +
      (vx * m3 + vy * m7 + vz * m11 + m15) * N13 = vy := by
    linear_combination vx * h1 + vy * h5 + vz * h9 + h13
  have hW2 : ((vx * m0 + vy * m4 + vz * m8 + m12) / (vx * m3 + vy * m7 + vz * m11 + m15)) * N3 +
        ((vx * m1 + vy * m5 + vz * m9 + m13) / (vx * m3 + vy * m7 + vz * m11 + m15)) * N7 +
        ((vx * m2 + vy * m6 + vz * m10 + m14) / (vx * m3 + vy * m7 + vz * m11 + m15)) * N11 + N15 =
      1 / (vx * m3 + vy * m7 + vz * m11 + m15) := by
    field_simp
    linear_combination hden
  rw [hW2, div_eq_mul_inv, one_div, inv_inv]
  field_simp
  linear_combination hnum

theorem TransformMatrix.roundtrip_component_z
    (m0 m1 m2 m3 m4 m5 m6 m7 m8 m9 m10 m11 m12 m13 m14 m15 : ℚ)
    (N2 N3 N6 N7 N10 N11 N14 N15 : ℚ) (vx vy vz : ℚ)
    (h2 : m0 * N2 + m1 * N6 + m2 * N10 + m3 * N14 = 0)
    (h3 : m0 * N3 + m1 * N7 + m2 * N11 + m3 * N15 = 0)
    (h6 : m4 * N2 + m5 * N6 + m6 * N10 + m7 * N14 = 0)
    (h7 : m4 * N3 + m5 * N7 + m6 * N11 + m7 * N15 = 0)
    (h10 : m8 * N2 + m9 * N6 + m10 * N10 + m11 * N14 = 1)
    (h11 : m8 * N3 + m9 * N7 + m10 * N11 + m11 * N15 = 0)
    (h14 : m12 * N2 + m13 * N6 + m14 * N10 + m15 * N14 = 0)
    (h15 : m12 * N3 + m13 * N7 + m14 * N11 + m15 * N15 = 1)
    (hw : vx * m3 + vy * m7 + vz * m11 + m15 ≠ 0) :
    (((vx * m0 + vy * m4 + vz * m8 + m12) / (vx * m3 + vy * m7 + vz * m11 + m15)) * N2 +
        ((vx * m1 + vy * m5 + vz * m9 + m13) / (vx * m3 + vy * m7 + vz * m11 + m15)) * N6 +
        ((vx * m2 + vy * m6 + vz * m10 + m14) / (vx * m3 + vy * m7 + vz * m11 + m15)) * N10 + N14) /
      (((vx * m0 + vy * m4 + vz * m8 + m12) / (vx * m3 + vy * m7 + vz * m11 + m15)) * N3 +
        ((vx * m1 + vy * m5 + vz * m9 + m13) / (vx * m3 + vy * m7 + vz * m11 + m15)) * N7 +
        ((vx * m2 + vy * m6 + vz * m10 + m14) / (vx * m3 + vy * m7 + vz * m11 + m15)) * N11 + N15) = vz := by
  have hden : (vx * m0 + vy * m4 + vz * m8 + m12) * N3 +
      (vx * m1 + vy * m5 + vz * m9 + m13) * N7 +
      (vx * m2 + vy * m6 + vz * m10 + m14) * N11 +
      (vx * m3 + vy * m7 + vz * m11 + m15) * N15 = 1 := by
    linear_combination vx * h3 + vy * h7 + vz * h11 + h15
  have hnum : (vx * m0 + vy * m4 + vz * m8 + m12) * N2 +
      (vx * m1 + vy * m5 + vz * m9 + m13) * N6 +
      (vx * m2 + vy * m6 + vz * m10 + m14) * N10 +
      (vx * m3 + vy * m7 + vz * m11 + m15) * N14 = vz := by
    linear_combination vx * h2 + vy * h6 + vz * h10 + h14
  have hW2 : ((vx * m0 + vy * m4 + vz * m8 + m12) / (vx * m3 + vy * m7 + vz * m11 + m15)) * N3 +
        ((vx * m1 + vy * m5 + vz * m9 + m13) / (vx * m3 + vy * m7 + vz * m11 + m15)) * N7 +
        ((vx * m2 + vy * m6 + vz * m10 + m14) / (vx * m3 + vy * m7 + vz * m11 + m15)) * N11 + N15 =
      1 / (vx * m3 + vy * m7 + vz * m11 + m15) := by
    field_simp
    linear_combination hden
  rw [hW2, div_eq_mul_inv, one_div, inv_inv]
  field_simp
  linear_combination hnum

/-- C4 amended: for every transform whose determinant (as computed inside
`invert`) is nonzero and every vector whose homogeneous weight
`vec2[3]` under the transform is nonzero, mapping through `multVec` and then
through `multVec` of the `invert()` result returns the vector exactly (over
exact arithmetic).  The weight hypothesis is forced by the counterexample:
when `vec2[3] = 0` the perspective divide is a division by zero and no
vector is recovered. -/
theorem TransformMatrix.invert_multVec_roundtrip (M : TransformMatrix) (v : Vec3 ℚ)
    (hdet : M.det ≠ 0) (hw : M.homogeneousWeight v ≠ 0) :
    (M.invert).multVec (M.multVec v) = v := by
  obtain ⟨vx, vy, vz⟩ := v
  have hkey := TransformMatrix.matMul_invert M hdet
  have h0 := congrArg TransformMatrix.m0 hkey
  have h1 := congrArg TransformMatrix.m1 hkey
  have h2 := congrArg TransformMatrix.m2 hkey
  have h3 := congrArg TransformMatrix.m3 hkey
  have h4 := congrArg TransformMatrix.m4 hkey
  have h5 := congrArg TransformMatrix.m5 hkey
  have h6 := congrArg TransformMatrix.m6 hkey
  have h7 := congrArg TransformMatrix.m7 hkey
  have h8 := congrArg TransformMatrix.m8 hkey
  have h9 := congrArg TransformMatrix.m9 hkey
  have h10 := congrArg TransformMatrix.m10 hkey
  have h11 := congrArg TransformMatrix.m11 hkey
  have h12 := congrArg TransformMatrix.m12 hkey
  have h13 := congrArg TransformMatrix.m13 hkey
  have h14 := congrArg TransformMatrix.m14 hkey
  have h15 := congrArg TransformMatrix.m15 hkey
  simp only [TransformMatrix.matMul, TransformMatrix.identity] at h0 h1 h2 h3 h4 h5 h6 h7 h8 h9 h10 h11 h12 h13 h14 h15
  simp only [TransformMatrix.homogeneousWeight] at hw
  simp only [TransformMatrix.multVec, Vec3.mk.injEq]
  refine ⟨?_, ?_, ?_⟩
  · exact TransformMatrix.roundtrip_component_x M.m0 M.m1 M.m2 M.m3 M.m4 M.m5 M.m6 M.m7 M.m8 M.m9 M.m10
      M.m11 M.m12 M.m13 M.m14 M.m15 (M.invert).m0 (M.invert).m3 (M.invert).m4 (M.invert).m7
      (M.invert).m8 (M.invert).m11 (M.invert).m12 (M.invert).m15 vx vy vz
      h0 h3 h4 h7 h8 h11 h12 h15 hw
  · exact TransformMatrix.roundtrip_component_y M.m0 M.m1 M.m2 M.m3 M.m4 M.m5 M.m6 M.m7 M.m8 M.m9 M.m10
      M.m11 M.m12 M.m13 M.m14 M.m15 (M.invert).m1 (M.invert).m3 (M.invert).m5 (M.invert).m7
      (M.invert).m9 (M.invert).m11 (M.invert).m13 (M.invert).m15 vx vy vz
      h1 h3 h5 h7 h9 h11 h13 h15 hw
  · exact TransformMatrix.roundtrip_component_z M.m0 M.m1 M.m2 M.m3 M.m4 M.m5 M.m6 M.m7 M.m8 M.m9 M.m10
      M.m11 M.m12 M.m13 M.m14 M.m15 (M.invert).m2 (M.invert).m3 (M.invert).m6 (M.invert).m7
      (M.invert).m10 (M.invert).m11 (M.invert).m14 (M.invert).m15 vx vy vz
      h2 h3 h6 h7 h10 h11 h14 h15 hw

/-- C4 counterexample: the matrix with rows `(1,0,0,1), (0,1,0,0), (0,0,1,0),
(0,0,0,1)` has determinant 1, yet the round trip on the vector `(-1, 0, 0)`
does not return it: the homogeneous weight of the first `multVec` is zero,
so the perspective divide destroys the vector (the C++ implementation
produces infinities at this input). -/
theorem TransformMatrix.invert_roundtrip_counterexample :
    TransformMatrix.det ⟨1, 0, 0, 1, 0, 1, 0, 0, 0, 0, 1, 0, 0, 0, 0, 1⟩ ≠ 0 ∧
    (TransformMatrix.invert ⟨1, 0, 0, 1, 0, 1, 0, 0, 0, 0, 1, 0, 0, 0, 0, 1⟩).multVec
        ((⟨1, 0, 0, 1, 0, 1, 0, 0, 0, 0, 1, 0, 0, 0, 0, 1⟩ : TransformMatrix).multVec
          ⟨-1, 0, 0⟩) ≠ ⟨-1, 0, 0⟩ := by
  constructor
  · norm_num [TransformMatrix.det]
  · norm_num [TransformMatrix.invert, TransformMatrix.multVec, Vec3.mk.injEq]

/-- Witness for the C4 amended theorem: the identity transform on the
vector `(1, 2, 3)`. -/
theorem TransformMatrix.invert_multVec_roundtrip_witness :
    (TransformMatrix.invert TransformMatrix.identity).multVec
      (TransformMatrix.identity.multVec ⟨1, 2, 3⟩) = ⟨1, 2, 3⟩ :=
  TransformMatrix.invert_multVec_roundtrip TransformMatrix.identity ⟨1, 2, 3⟩
    (by norm_num [TransformMatrix.det, TransformMatrix.identity])
    (by norm_num [TransformMatrix.homogeneousWeight, TransformMatrix.identity])


theorem Vec3.magnitudeSquared_nonneg (a : Vec3 ℝ) : 0 ≤ a.magnitudeSquared := by
  simp only [Vec3.magnitudeSquared]
  nlinarith [mul_self_nonneg a.x, mul_self_nonneg a.y, mul_self_nonneg a.z]

theorem Vec3.magnitudeSquared_neg (a : Vec3 ℝ) :
    (Vec3.neg a).magnitudeSquared = a.magnitudeSquared := by
  simp only [Vec3.neg, Vec3.magnitudeSquared]
  ring

theorem Vec3.dot_self_eq (a : Vec3 ℝ) : a.dot a = a.magnitudeSquared := by
  simp only [Vec3.dot, Vec3.magnitudeSquared]

theorem Vec3.normalize_dot (w n : Vec3 ℝ) :
    (w.normalize).dot n = w.dot n / Real.sqrt w.magnitudeSquared := by
  simp only [Vec3.normalize, Vec3.dot]
  ring

theorem Vec3.cross_dot_right (a b : Vec3 ℝ) : (a.cross b).dot b = 0 := by
  simp only [Vec3.cross, Vec3.dot]
  ring

theorem Vec3.cross_dot_left (a b : Vec3 ℝ) : (a.cross b).dot a = 0 := by
  simp only [Vec3.cross, Vec3.dot]
  ring

theorem Vec3.add_dot (a b c : Vec3 ℝ) : (a.add b).dot c = a.dot c + b.dot c := by
  simp only [Vec3.add, Vec3.dot]
  ring

theorem Vec3.smul_dot (a : Vec3 ℝ) (s : ℝ) (b : Vec3 ℝ) :
    (a.smul s).dot b = s * (a.dot b) := by
  simp only [Vec3.smul, Vec3.dot]
  ring

theorem Vec3.dot_sq_le (a b : Vec3 ℝ) :
    (a.dot b) ^ 2 ≤ a.magnitudeSquared * b.magnitudeSquared := by
  simp only [Vec3.dot, Vec3.magnitudeSquared]
  nlinarith [sq_nonneg (a.x * b.y - a.y * b.x), sq_nonneg (a.x * b.z - a.z * b.x),
    sq_nonneg (a.y * b.z - a.z * b.y)]

theorem Vec3.normalize_dot_bounds (w n : Vec3 ℝ) (hn : n.magnitudeSquared ≤ 1)
    (hwn : 0 ≤ w.dot n) : 0 ≤ (w.normalize).dot n ∧ (w.normalize).dot n ≤ 1 := by
  rw [Vec3.normalize_dot]
  constructor
  · exact div_nonneg hwn (Real.sqrt_nonneg _)
  · rcases eq_or_lt_of_le (Real.sqrt_nonneg w.magnitudeSquared) with h | h
    · rw [← h, div_zero]
      norm_num
    · rw [div_le_one h]
      have h1 : (w.dot n) ^ 2 ≤ w.magnitudeSquared := by
        calc (w.dot n) ^ 2 ≤ w.magnitudeSquared * n.magnitudeSquared := Vec3.dot_sq_le w n
          _ ≤ w.magnitudeSquared * 1 :=
            mul_le_mul_of_nonneg_left hn (Vec3.magnitudeSquared_nonneg w)
          _ = w.magnitudeSquared := mul_one _
      exact (Real.le_sqrt hwn (Vec3.magnitudeSquared_nonneg w)).mpr h1

theorem Diffuse.bounceCosine_bounds (hitNormal : Vec3 ℝ) (unif1 unif2 : ℝ)
    (ray : Ray ℝ) (hn : hitNormal.magnitudeSquared ≤ 1) :
    0 ≤ Diffuse.bounceCosine hitNormal unif1 unif2 ray ∧
      Diffuse.bounceCosine hitNormal unif1 unif2 ray ≤ 1 := by
  unfold Diffuse.bounceCosine
  simp only
  set normal := if hitNormal.dot ray.direction > 0 then hitNormal.neg else hitNormal with hNdef
  set axis : Vec3 ℝ := if |normal.x| > 1 / 10 then (⟨0, 1, 0⟩ : Vec3 ℝ) else ⟨1, 0, 0⟩ with hAdef
  have hnm : normal.magnitudeSquared ≤ 1 := by
    rw [hNdef]
    by_cases hflip : hitNormal.dot ray.direction > 0
    · rw [if_pos hflip, Vec3.magnitudeSquared_neg]
      exact hn
    · rw [if_neg hflip]
      exact hn
  set u := (axis.cross normal).normalize with hUdef
  set v := (normal.cross u).normalize with hVdef
  set w := (((u.smul (Real.cos (unif1 * 2 * Real.pi))).smul (Real.sqrt unif2)).add
      ((v.smul (Real.sin (unif1 * 2 * Real.pi))).smul (Real.sqrt unif2))).add
    (normal.smul (Real.sqrt (1 - unif2))) with hWdef
  have hu : u.dot normal = 0 := by
    rw [hUdef, Vec3.normalize_dot, Vec3.cross_dot_right, zero_div]
  have hv : v.dot normal = 0 := by
    rw [hVdef, Vec3.normalize_dot, Vec3.cross_dot_left, zero_div]
  have hwn : w.dot normal = Real.sqrt (1 - unif2) * normal.magnitudeSquared := by
    rw [hWdef, Vec3.add_dot, Vec3.add_dot, Vec3.smul_dot, Vec3.smul_dot, Vec3.smul_dot,
      Vec3.smul_dot, Vec3.smul_dot, hu, hv, Vec3.dot_self_eq]
    ring
  have hwn0 : 0 ≤ w.dot normal := by
    rw [hwn]
    exact mul_nonneg (Real.sqrt_nonneg _) (Vec3.magnitudeSquared_nonneg _)
  exact Vec3.normalize_dot_bounds w normal hnm hwn0


/-- C5: for every ray with nonnegative mask channels, every Diffuse material
with roughness in `[0, 1]` and albedo channels in `[0, 1]`, every
interpolated hit normal of squared magnitude at most 1 (triangle vertex
normals are unit and barycentric interpolation inside the triangle cannot
exceed that), and every uniform draw `unif2` in `[0, 1]`: the cosine
`newdir.dot(normal)` computed by the bounce lies in `[0, 1]` (the normal
flip does not change its magnitude), the new mask is exactly the old mask
multiplied channelwise by `albedo * cosine ^ roughness`, each such factor
lies in `[0, 1]`, hence each mask channel and the mask squared magnitude are
non-increasing across the bounce. -/
theorem Diffuse.bounce_mask_attenuation (mat : Diffuse) (hitNormal : Vec3 ℝ)
    (unif1 unif2 : ℝ) (ray : Ray ℝ)
    (hmx : 0 ≤ ray.mask.x) (hmy : 0 ≤ ray.mask.y) (hmz : 0 ≤ ray.mask.z)
    (hr0 : 0 ≤ mat.roughness) (hr1 : mat.roughness ≤ 1)
    (hax : 0 ≤ mat.colour.x ∧ mat.colour.x ≤ 1)
    (hay : 0 ≤ mat.colour.y ∧ mat.colour.y ≤ 1)
    (haz : 0 ≤ mat.colour.z ∧ mat.colour.z ≤ 1)
    (hn : hitNormal.magnitudeSquared ≤ 1)
    (h2a : 0 ≤ unif2) (h2b : unif2 ≤ 1) :
    (0 ≤ Diffuse.bounceCosine hitNormal unif1 unif2 ray ∧
        Diffuse.bounceCosine hitNormal unif1 unif2 ray ≤ 1) ∧
    (mat.bounce hitNormal unif1 unif2 ray).mask =
        ray.mask.mulV (mat.colour.smul
          (Diffuse.bounceCosine hitNormal unif1 unif2 ray ^ mat.roughness)) ∧
    (0 ≤ mat.colour.x * Diffuse.bounceCosine hitNormal unif1 unif2 ray ^ mat.roughness ∧
        mat.colour.x * Diffuse.bounceCosine hitNormal unif1 unif2 ray ^ mat.roughness ≤ 1) ∧
    (0 ≤ mat.colour.y * Diffuse.bounceCosine hitNormal unif1 unif2 ray ^ mat.roughness ∧
        mat.colour.y * Diffuse.bounceCosine hitNormal unif1 unif2 ray ^ mat.roughness ≤ 1) ∧
    (0 ≤ mat.colour.z * Diffuse.bounceCosine hitNormal unif1 unif2 ray ^ mat.roughness ∧
        mat.colour.z * Diffuse.bounceCosine hitNormal unif1 unif2 ray ^ mat.roughness ≤ 1) ∧
    (0 ≤ (mat.bounce hitNormal unif1 unif2 ray).mask.x ∧
        (mat.bounce hitNormal unif1 unif2 ray).mask.x ≤ ray.mask.x) ∧
    (0 ≤ (mat.bounce hitNormal unif1 unif2 ray).mask.y ∧
        (mat.bounce hitNormal unif1 unif2 ray).mask.y ≤ ray.mask.y) ∧
    (0 ≤ (mat.bounce hitNormal unif1 unif2 ray).mask.z ∧
        (mat.bounce hitNormal unif1 unif2 ray).mask.z ≤ ray.mask.z) ∧
    (mat.bounce hitNormal unif1 unif2 ray).mask.magnitudeSquared ≤
      ray.mask.magnitudeSquared := by
  obtain ⟨hc0, hc1⟩ := Diffuse.bounceCosine_bounds hitNormal unif1 unif2 ray hn
  have hmaskeq : (mat.bounce hitNormal unif1 unif2 ray).mask =
      ray.mask.mulV (mat.colour.smul
        (Diffuse.bounceCosine hitNormal unif1 unif2 ray ^ mat.roughness)) := rfl
  have hp0 : 0 ≤ Diffuse.bounceCosine hitNormal unif1 unif2 ray ^ mat.roughness :=
    Real.rpow_nonneg hc0 _
  have hp1 : Diffuse.bounceCosine hitNormal unif1 unif2 ray ^ mat.roughness ≤ 1 :=
    Real.rpow_le_one hc0 hc1 hr0
  have hFx : 0 ≤ mat.colour.x * Diffuse.bounceCosine hitNormal unif1 unif2 ray ^ mat.roughness ∧
      mat.colour.x * Diffuse.bounceCosine hitNormal unif1 unif2 ray ^ mat.roughness ≤ 1 :=
    ⟨mul_nonneg hax.1 hp0, mul_le_one₀ hax.2 hp0 hp1⟩
  have hFy : 0 ≤ mat.colour.y * Diffuse.bounceCosine hitNormal unif1 unif2 ray ^ mat.roughness ∧
      mat.colour.y * Diffuse.bounceCosine hitNormal unif1 unif2 ray ^ mat.roughness ≤ 1 :=
    ⟨mul_nonneg hay.1 hp0, mul_le_one₀ hay.2 hp0 hp1⟩
  have hFz : 0 ≤ mat.colour.z * Diffuse.bounceCosine hitNormal unif1 unif2 ray ^ mat.roughness ∧
      mat.colour.z * Diffuse.bounceCosine hitNormal unif1 unif2 ray ^ mat.roughness ≤ 1 :=
    ⟨mul_nonneg haz.1 hp0, mul_le_one₀ haz.2 hp0 hp1⟩
  have hchx : (mat.bounce hitNormal unif1 unif2 ray).mask.x =
      ray.mask.x * (mat.colour.x * Diffuse.bounceCosine hitNormal unif1 unif2 ray ^ mat.roughness) := by
    rw [hmaskeq]
    simp only [Vec3.mulV, Vec3.smul]
  have hchy : (mat.bounce hitNormal unif1 unif2 ray).mask.y =
      ray.mask.y * (mat.colour.y * Diffuse.bounceCosine hitNormal unif1 unif2 ray ^ mat.roughness) := by
    rw [hmaskeq]
    simp only [Vec3.mulV, Vec3.smul]
  have hchz : (mat.bounce hitNormal unif1 unif2 ray).mask.z =
      ray.mask.z * (mat.colour.z * Diffuse.bounceCosine hitNormal unif1 unif2 ray ^ mat.roughness) := by
    rw [hmaskeq]
    simp only [Vec3.mulV, Vec3.smul]
  have hbx : 0 ≤ (mat.bounce hitNormal unif1 unif2 ray).mask.x ∧
      (mat.bounce hitNormal unif1 unif2 ray).mask.x ≤ ray.mask.x := by
    rw [hchx]
    constructor
    · exact mul_nonneg hmx hFx.1
    · calc ray.mask.x * (mat.colour.x * Diffuse.bounceCosine hitNormal unif1 unif2 ray ^ mat.roughness)
          ≤ ray.mask.x * 1 := mul_le_mul_of_nonneg_left hFx.2 hmx
        _ = ray.mask.x := mul_one _
  have hby : 0 ≤ (mat.bounce hitNormal unif1 unif2 ray).mask.y ∧
      (mat.bounce hitNormal unif1 unif2 ray).mask.y ≤ ray.mask.y := by
    rw [hchy]
    constructor
    · exact mul_nonneg hmy hFy.1
    · calc ray.mask.y * (mat.colour.y * Diffuse.bounceCosine hitNormal unif1 unif2 ray ^ mat.roughness)
          ≤ ray.mask.y * 1 := mul_le_mul_of_nonneg_left hFy.2 hmy
        _ = ray.mask.y := mul_one _
  have hbz : 0 ≤ (mat.bounce hitNormal unif1 unif2 ray).mask.z ∧
      (mat.bounce hitNormal unif1 unif2 ray).mask.z ≤ ray.mask.z := by
    rw [hchz]
    constructor
    · exact mul_nonneg hmz hFz.1
    · calc ray.mask.z * (mat.colour.z * Diffuse.bounceCosine hitNormal unif1 unif2 ray ^ mat.roughness)
          ≤ ray.mask.z * 1 := mul_le_mul_of_nonneg_left hFz.2 hmz
        _ = ray.mask.z := mul_one _
  refine ⟨⟨hc0, hc1⟩, hmaskeq, hFx, hFy, hFz, hbx, hby, hbz, ?_⟩
  simp only [Vec3.magnitudeSquared]
  have sx := mul_self_le_mul_self hbx.1 hbx.2
  have sy := mul_self_le_mul_self hby.1 hby.2
  have sz := mul_self_le_mul_self hbz.1 hbz.2
  linarith

/-- Witness for the C5 theorem: a pure-white diffuse material of roughness 1
hit head-on with the unit normal `(0, 0, 1)` and both uniform draws zero. -/
theorem Diffuse.bounce_mask_attenuation_witness :
    ((⟨⟨0, 0, 0⟩, ⟨1, 1, 1⟩, 1⟩ : Diffuse).bounce ⟨0, 0, 1⟩ 0 0
        ⟨⟨0, 0, 0⟩, ⟨0, 0, -1⟩, ⟨0, 0, 0⟩, ⟨1, 1, 1⟩, 0, ⟨1, [0]⟩, 1⟩).mask.magnitudeSquared ≤
      (⟨⟨0, 0, 0⟩, ⟨0, 0, -1⟩, ⟨0, 0, 0⟩, ⟨1, 1, 1⟩, 0, ⟨1, [0]⟩, 1⟩ : Ray ℝ).mask.magnitudeSquared :=
  (Diffuse.bounce_mask_attenuation ⟨⟨0, 0, 0⟩, ⟨1, 1, 1⟩, 1⟩ ⟨0, 0, 1⟩ 0 0
    ⟨⟨0, 0, 0⟩, ⟨0, 0, -1⟩, ⟨0, 0, 0⟩, ⟨1, 1, 1⟩, 0, ⟨1, [0]⟩, 1⟩
    (by norm_num) (by norm_num) (by norm_num) (by norm_num) (by norm_num)
    (by norm_num) (by norm_num) (by norm_num)
    (by norm_num [Vec3.magnitudeSquared]) (by norm_num) (by norm_num)).2.2.2.2.2.2.2.2

end AGPTracer

